import Mathlib

/-!
# lbrytv-player: request handling, resolve cache and paid-access check

A shallow embedding of `player/player.go` and `player/http_handlers.go`.

* Go strings are `String`; `strings.Contains` and `strings.Replace` work on the
  character list.
* A Go `error` is its text (`Error()`) together with the identities reachable
  through `Unwrap`, which is all `errors.Is` looks at.
* `http.ResponseWriter` is a record of header map, status line and body, with
  the standard library's rule that only the first `WriteHeader` counts.
* The collaborators that live outside the two files (the SDK resolver, the
  token verifier of package `paid`, `Stream.PrepareForReading`, `ServeStream`,
  the process environment, the clock and the random source) are the fields of
  `Env`.  Every call to one of them is recorded in a trace of `Event`s.
-/

set_option autoImplicit false

namespace LbrytvPlayer

/-! ## Strings -/

/-- Go `strings.Contains` on character lists: `sub` occurs in `s` at some offset. -/
def containsChars : List Char → List Char → Bool
  | [], sub => sub.isPrefixOf []
  | c :: cs, sub => sub.isPrefixOf (c :: cs) || containsChars cs sub

/-- Go `strings.Contains(s, substr)`. -/
def stringsContains (s substr : String) : Bool :=
  containsChars s.data substr.data

/-- Worker of `strings.Replace` for a non-empty `old`: walks `s` left to right,
replacing non-overlapping occurrences of `old` by `new` while `n` replacements
remain.  `fuel` bounds the walk; `s.length` steps always suffice. -/
def replaceChars (old new : List Char) : Nat → Nat → List Char → List Char
  | 0, _, s => s
  | _ + 1, 0, s => s
  | _ + 1, _ + 1, [] => []
  | fuel + 1, n + 1, c :: cs =>
    if old.isPrefixOf (c :: cs) then
      new ++ replaceChars old new fuel n ((c :: cs).drop old.length)
    else
      c :: replaceChars old new fuel (n + 1) cs

/-- Go `strings.Replace(s, old, new, n)` for non-empty `old` and `n ≥ 0`. -/
def stringsReplace (s old new : String) (n : Nat) : String :=
  ⟨replaceChars old.data new.data s.data.length n s.data⟩

/-- Go `fmt.Sprintf("%s#%s", a, b)`. -/
def sprintfHash (a b : String) : String :=
  a ++ "#" ++ b

/-! ## Errors -/

/-- Identity of an error value, as compared by `errors.Is`. -/
inductive ErrId where
  | paidStream
  | streamNotFound
  | foreign (n : Nat)
  deriving DecidableEq, Repr

/-- A Go `error`: the text returned by `Error()` and the identities of the
error itself and of everything it wraps, outermost first. -/
structure GoError where
  text : String
  chain : List ErrId
  deriving DecidableEq, Repr

/-- Modelled from the spec: the declaration of the sentinel `errPaidStream` is
not in the two files; it is the PaymentRequired error of the taxonomy, a
plain sentinel that wraps nothing.  Its text stands in for the declared one;
the code tests the sentinel by identity, never by text. -/
def errPaidStream : GoError :=
  { text := "paid stream", chain := [ErrId.paidStream] }

/-- Modelled from the spec: the declaration of the sentinel `errStreamNotFound`
is not in the two files; it is the StreamNotFound error of the taxonomy, a
plain sentinel that wraps nothing.  Its text stands in for the declared one;
the code tests the sentinel by identity, never by text. -/
def errStreamNotFound : GoError :=
  { text := "could not resolve stream URI", chain := [ErrId.streamNotFound] }

/-- Go `errors.Is(err, target)` for a sentinel `target`: the identity of
`target` is `err` itself or is reached by unwrapping `err`. -/
def errorsIs (err target : GoError) : Bool :=
  match target.chain with
  | [] => false
  | t :: _ => decide (t ∈ err.chain)

/-! ## HTTP response writer -/

/-- State of an `http.ResponseWriter`: header map, status (`none` until the
header has been written) and the body bytes written so far. -/
structure ResponseWriter where
  header : List (String × String)
  status : Option Nat
  body : String
  deriving DecidableEq, Repr

/-- Go `w.Header().Set(key, value)`: replaces any value stored under `key`. -/
def headerSet (h : List (String × String)) (key value : String) : List (String × String) :=
  h.filter (fun kv => kv.1 ≠ key) ++ [(key, value)]

/-- Go `w.Header().Get(key)`, `none` standing for an absent key. -/
def headerGet (h : List (String × String)) (key : String) : Option String :=
  (h.find? (fun kv => kv.1 = key)).map (fun kv => kv.2)

/-- Go `w.WriteHeader(statusCode)`: only the first call takes effect. -/
def ResponseWriter.WriteHeader (w : ResponseWriter) (statusCode : Nat) : ResponseWriter :=
  match w.status with
  | none => { w with status := some statusCode }
  | some _ => w

/-- Go `w.Write(b)`: writes status 200 first when no header was written. -/
def ResponseWriter.Write (w : ResponseWriter) (b : String) : ResponseWriter :=
  let w1 := w.WriteHeader 200
  { w1 with body := w1.body ++ b }

def StatusOK : Nat := 200
def StatusUnauthorized : Nat := 401
def StatusPaymentRequired : Nat := 402
def StatusNotFound : Nat := 404
def StatusGone : Nat := 410
def StatusInternalServerError : Nat := 500
def StatusServiceUnavailable : Nat := 503

/-- Source `writeErrorResponse`. -/
def writeErrorResponse (w : ResponseWriter) (statusCode : Nat) (msg : String) : ResponseWriter :=
  (w.WriteHeader statusCode).Write msg

/-- Source `processStreamError`, as far as it touches the response (logging and
the sentry capture do not). -/
def processStreamError (w : ResponseWriter) (err : GoError) : ResponseWriter :=
  if errorsIs err errPaidStream then
    writeErrorResponse w StatusPaymentRequired err.text
  else if errorsIs err errStreamNotFound then
    writeErrorResponse w StatusNotFound err.text
  else if stringsContains err.text "blob not found" then
    writeErrorResponse w StatusServiceUnavailable err.text
  else if stringsContains err.text "hash in response does not match" then
    writeErrorResponse w StatusServiceUnavailable err.text
  else if stringsContains err.text "token contains an invalid number of segments" then
    writeErrorResponse w StatusUnauthorized err.text
  else if stringsContains err.text "crypto/rsa: verification error" then
    writeErrorResponse w StatusUnauthorized err.text
  else if stringsContains err.text "token is expired" then
    writeErrorResponse w StatusGone err.text
  else
    writeErrorResponse w StatusInternalServerError err.text

/-! ## Claims, streams and the resolve cache -/

/-- Fee of a stream claim; only the amount is read by the code, which compares
it with zero.  The integers cover every value of the declared numeric type. -/
structure Fee where
  Amount : Int
  deriving DecidableEq, Repr

/-- Modelled from the spec: the SDK claim type is declared outside the two
files; this is the content descriptor of the data model, with the fields the
handler reads (canonical URI, optional fee, declared size, MIME type,
timestamp already rendered as an HTTP date, file name). -/
structure Claim where
  CanonicalURL : String
  fee : Option Fee
  size : Nat
  contentType : String
  lastModified : String
  filename : String
  deriving DecidableEq, Repr

/-- Go zero value of `Claim`, produced by indexing a map at a missing key. -/
def Claim.zero : Claim :=
  { CanonicalURL := "", fee := none, size := 0, contentType := "",
    lastModified := "", filename := "" }

/-- Modelled from the spec: the `Stream` type is declared outside the two
files; a stream combines the URI it was requested under with the resolved
descriptor. -/
structure Stream where
  URI : String
  claim : Claim
  deriving DecidableEq, Repr

/-- Modelled from the spec: `NewStream(p, uri, claim)` is defined outside the
two files; the descriptor is copied into a stream on resolution. -/
def NewStream (uri : String) (claim : Claim) : Stream :=
  { URI := uri, claim := claim }

/-- An item of the resolve cache: the stored claim and the instant (in
nanoseconds) at which it expires. -/
structure Item where
  value : Claim
  expires : Nat
  deriving DecidableEq, Repr

/-- `Item.Expired()` of the cache library: the expiry instant lies strictly
before `now`. -/
def Item.Expired (i : Item) (now : Nat) : Bool :=
  decide (i.expires < now)

/-- Contents of the resolve cache, keyed by URI. -/
abbrev Cache := List (String × Item)

/-- `Cache.Get(key)` of the cache library: the stored item, expired or not. -/
def Cache.Get : Cache → String → Option Item
  | [], _ => none
  | (k, v) :: rest, key => if k = key then some v else Cache.Get rest key

/-- `Cache.Set(key, value, duration)` of the cache library at instant `now`:
the entry under `key` is replaced by one expiring at `now + duration`. -/
def Cache.Set (c : Cache) (key : String) (value : Claim) (duration now : Nat) : Cache :=
  (key, { value := value, expires := now + duration }) :: c.filter (fun kv => kv.1 ≠ key)

/-- Go `time.Minute`, in nanoseconds. -/
def Minute : Nat := 60 * 1000000000

/-- Go `rand.Intn(n)` for `n > 0`, given the raw draw of the random source. -/
def randIntn (raw n : Nat) : Nat := raw % n

/-! ## Errors of the token verifier -/

/-- The texts by which the delivery layer tells failure reasons apart: the
substrings `processStreamError` searches for, in its order. -/
def reasonMarkers : List String :=
  ["blob not found", "hash in response does not match",
    "token contains an invalid number of segments", "crypto/rsa: verification error",
    "token is expired"]

/-- Number of failure reasons whose marker occurs in `text`. -/
def reasonCount (text : String) : Nat :=
  (reasonMarkers.filter (fun m => stringsContains text m)).length

/-- Modelled from the spec: the token verifier `paid.VerifyStreamAccess` is not
in the two files.  By the access-verifier contract any failure is reported with
a distinct reason (malformed token, bad signature, expired token), so that the
delivery layer can map it to one status: an error of the verifier carries the
marker of at most one failure reason.  It is made in package `paid`, which
cannot name the sentinels of package `player`, so it is and wraps neither. -/
def verifierError (err : GoError) : Bool :=
  decide (reasonCount err.text ≤ 1) && !errorsIs err errPaidStream &&
    !errorsIs err errStreamNotFound

/-! ## Requests, collaborators and traces -/

/-- An HTTP request as the handler sees it: the method, the route variables
`claim_name`, `claim_id` and `token`, and the `download` query parameter. -/
structure Request where
  Method : String
  claim_name : String
  claim_id : String
  token : String
  download : String
  deriving DecidableEq, Repr

def MethodGet : String := "GET"
def MethodHead : String := "HEAD"

/-- What lies outside the two files and is consulted by them. -/
structure Env where
  /-- SDK call `lbrynetClient.Resolve(uri)`; the result maps URIs to claims. -/
  Resolve : String → Except GoError (List (String × Claim))
  /-- Token verifier `paid.VerifyStreamAccess(streamID, token)`. -/
  VerifyStreamAccess : String → String → Option GoError
  /-- Method `Stream.PrepareForReading()`. -/
  PrepareForReading : Stream → Option GoError
  /-- Function `ServeStream(w, r, s)` and what it does to the response. -/
  ServeStream : ResponseWriter → Request → Stream → ResponseWriter
  /-- Value of `os.Getenv("PLAYER_NAME")`. -/
  playerNameEnv : String
  /-- Result of `os.Hostname()`; `none` when it fails. -/
  hostname : Option String
  /-- Clock reading, in nanoseconds. -/
  now : Nat
  /-- Raw draw of the random source used by `rand.Intn`. -/
  rand : Nat

/-- Calls made to collaborators and to the error path while serving a request. -/
inductive Event where
  | resolverCall (uri : String)
  | verifierCall (streamID token : String)
  | prepareForReading (s : Stream)
  | play (s : Stream)
  | streamError (errorType : String) (err : GoError)
  deriving DecidableEq, Repr

/-- The entry of a Go map under `key`, if there is one. -/
def mapLookup : List (String × Claim) → String → Option Claim
  | [], _ => none
  | (k, v) :: rest, key => if k = key then some v else mapLookup rest key

/-- Go map index `m[key]`: the zero value when the key is absent. -/
def mapIndex (m : List (String × Claim)) (key : String) : Claim :=
  match mapLookup m key with
  | some c => c
  | none => Claim.zero

/-! ## Player -/

/-- Source `Player.resolve`. -/
def resolve (env : Env) (uri : String) : Except GoError Claim :=
  match env.Resolve uri with
  | Except.error err => Except.error err
  | Except.ok resolved =>
    let claim := mapIndex resolved uri
    if claim.CanonicalURL = "" then Except.error errStreamNotFound
    else Except.ok claim

/-- Source `Player.ResolveStream`: result, resolve cache afterwards and the
resolver calls made. -/
def ResolveStream (env : Env) (cache : Cache) (uri : String) :
    Except GoError Stream × Cache × List Event :=
  let cachedClaim := cache.Get uri
  match cachedClaim with
  | some item =>
    if !item.Expired env.now then
      (Except.ok (NewStream uri item.value), cache, [])
    else
      match resolve env uri with
      | Except.error err => (Except.error err, cache, [Event.resolverCall uri])
      | Except.ok claim =>
        (Except.ok (NewStream uri claim),
          cache.Set uri claim ((randIntn env.rand 5 + 5) * Minute) env.now,
          [Event.resolverCall uri])
  | none =>
    match resolve env uri with
    | Except.error err => (Except.error err, cache, [Event.resolverCall uri])
    | Except.ok claim =>
      (Except.ok (NewStream uri claim),
        cache.Set uri claim ((randIntn env.rand 5 + 5) * Minute) env.now,
        [Event.resolverCall uri])

/-- The paid-stream test of `VerifyAccess`: a fee is present and its amount is
above zero. -/
def isPaid (s : Stream) : Bool :=
  match s.claim.fee with
  | none => false
  | some f => !decide (f.Amount ≤ 0)

/-- Source `Player.VerifyAccess`: the error returned (`none` for `nil`) and the
verifier calls made. -/
def VerifyAccess (env : Env) (s : Stream) (token : String) : Option GoError × List Event :=
  if !isPaid s then (none, [])
  else if token = "" then (some errPaidStream, [])
  else
    let streamID := stringsReplace s.URI "#" "/" 1
    match env.VerifyStreamAccess streamID token with
    | some err => (some err, [Event.verifierCall streamID token])
    | none => (none, [Event.verifierCall streamID token])

/-- Source `Player.Play`: hands the stream to `ServeStream` and returns `nil`. -/
def Play (env : Env) (s : Stream) (w : ResponseWriter) (r : Request) :
    ResponseWriter × Option GoError :=
  (env.ServeStream w r s, none)

/-! ## HTTP handler -/

/-- Source `writeHeaders`. -/
def writeHeaders (env : Env) (w : ResponseWriter) (r : Request) (s : Stream) : ResponseWriter :=
  let playerName :=
    if env.playerNameEnv = "" then
      match env.hostname with
      | some h => h
      | none => "unknown-player"
    else env.playerNameEnv
  let header := w.header
  let header := headerSet header "Content-Length" (toString s.claim.size)
  let header := headerSet header "Content-Type" s.claim.contentType
  let header := headerSet header "Cache-Control" "public, max-age=31536000"
  let header := headerSet header "Last-Modified" s.claim.lastModified
  let header := headerSet header "X-Powered-By" playerName
  let header := headerSet header "Access-Control-Expose-Headers" "X-Powered-By"
  let header :=
    if r.download ≠ "" then
      headerSet header "Content-Disposition" ("attachment; filename=" ++ s.claim.filename)
    else header
  { w with header := header }

/-- Source `RequestHandler.Handle`: the response, the resolve cache afterwards
and the trace of calls. -/
def Handle (env : Env) (cache : Cache) (w : ResponseWriter) (r : Request) :
    ResponseWriter × Cache × List Event :=
  let uri := sprintfHash r.claim_name r.claim_id
  let token := r.token
  match ResolveStream env cache uri with
  | (Except.error err, cache1, ev1) =>
    (processStreamError w err, cache1, ev1 ++ [Event.streamError "resolve" err])
  | (Except.ok s, cache1, ev1) =>
    match VerifyAccess env s token with
    | (some err, ev2) =>
      (processStreamError w err, cache1, ev1 ++ ev2 ++ [Event.streamError "access" err])
    | (none, ev2) =>
      match env.PrepareForReading s with
      | some err =>
        (processStreamError w err, cache1,
          ev1 ++ ev2 ++ [Event.prepareForReading s, Event.streamError "retrieval" err])
      | none =>
        let w1 := writeHeaders env w r s
        if r.Method = MethodHead then
          (w1.WriteHeader StatusOK, cache1, ev1 ++ ev2 ++ [Event.prepareForReading s])
        else if r.Method = MethodGet then
          match Play env s w1 r with
          | (w2, some err) =>
            (processStreamError w2 err, cache1,
              ev1 ++ ev2 ++ [Event.prepareForReading s, Event.play s,
                Event.streamError "playback" err])
          | (w2, none) =>
            (w2, cache1, ev1 ++ ev2 ++ [Event.prepareForReading s, Event.play s])
        else
          (w1, cache1, ev1 ++ ev2 ++ [Event.prepareForReading s])

/-! ## Sample data -/

def freshWriter : ResponseWriter :=
  { header := [], status := none, body := "" }

def paidClaim : Claim :=
  { CanonicalURL := "lbry://@c#1/video#a", fee := some { Amount := 5 }, size := 10,
    contentType := "video/mp4", lastModified := "Mon, 02 Jan 2006 15:04:05 GMT",
    filename := "video.mp4" }

def freeClaim : Claim :=
  { paidClaim with fee := none }

/-- An environment whose resolver knows `video#a` as a paid stream, whose
verifier accepts every token, and whose `ServeStream` writes the whole body. -/
def sampleEnv : Env :=
  { Resolve := fun uri => Except.ok [(uri, paidClaim)]
    VerifyStreamAccess := fun _ _ => none
    PrepareForReading := fun _ => none
    ServeStream := fun w _ _ => (w.WriteHeader StatusOK).Write "0123456789"
    playerNameEnv := "player1"
    hostname := some "host"
    now := 1000
    rand := 7 }

def sampleRequest : Request :=
  { Method := "GET", claim_name := "video", claim_id := "a", token := "", download := "" }

/-- A verifier error reporting an expired token. -/
def expiredErr : GoError :=
  { text := "token is expired", chain := [ErrId.foreign 1] }

/-- The sample environment with a verifier that finds every token expired. -/
def expiredEnv : Env :=
  { sampleEnv with VerifyStreamAccess := fun _ _ => some expiredErr }

/-- An environment serving a free stream in which `ServeStream` fails on a
chunk with a hash mismatch after the header and four bytes went out: it stops
writing, and has nothing to return to its caller. -/
def hashMismatchEnv : Env :=
  { sampleEnv with
    Resolve := fun uri => Except.ok [(uri, freeClaim)]
    ServeStream := fun w _ _ => (w.WriteHeader StatusOK).Write "0123" }

/-- The sample environment with a resolver that answers with an empty mapping. -/
def notFoundEnv : Env :=
  { sampleEnv with Resolve := fun _ => Except.ok [] }

/-- A cache whose entry for `video#a` expired one nanosecond before the sample
clock reading. -/
def staleCache : Cache :=
  [("video#a", { value := paidClaim, expires := 999 })]

/-! ## Basic facts about the response writer and the error path -/

/-- `containsChars` decides the substring relation. -/
theorem containsChars_iff_infix (s sub : List Char) :
    containsChars s sub = true ↔ sub <:+: s := by
  induction s with
  | nil =>
    cases sub with
    | nil => simp [containsChars]
    | cons a t => simp [containsChars, List.isPrefixOf]
  | cons c cs ih =>
    rw [containsChars, Bool.or_eq_true, ih, List.infix_cons_iff, List.isPrefixOf_iff_prefix]

theorem writeErrorResponse_fresh (w : ResponseWriter) (code : Nat) (msg : String)
    (hw : w.status = none) :
    writeErrorResponse w code msg =
      { header := w.header, status := some code, body := w.body ++ msg } := by
  cases w with
  | mk h st b =>
    simp only at hw
    subst hw
    rfl

theorem errorsIs_errPaidStream (err : GoError) :
    errorsIs err errPaidStream = true ↔ ErrId.paidStream ∈ err.chain := by
  simp [errorsIs, errPaidStream]

theorem errorsIs_errStreamNotFound (err : GoError) :
    errorsIs err errStreamNotFound = true ↔ ErrId.streamNotFound ∈ err.chain := by
  simp [errorsIs, errStreamNotFound]

/-- The status `processStreamError` selects, on a writer whose header is not
yet written, together with body and header map. -/
theorem processStreamError_fresh (w : ResponseWriter) (err : GoError) (hw : w.status = none) :
    ∃ code, processStreamError w err =
        { header := w.header, status := some code, body := w.body ++ err.text } ∧
      code =
        (if errorsIs err errPaidStream then 402
        else if errorsIs err errStreamNotFound then 404
        else if stringsContains err.text "blob not found" then 503
        else if stringsContains err.text "hash in response does not match" then 503
        else if stringsContains err.text "token contains an invalid number of segments" then 401
        else if stringsContains err.text "crypto/rsa: verification error" then 401
        else if stringsContains err.text "token is expired" then 410
        else 500) := by
  unfold processStreamError
  simp only [writeErrorResponse_fresh _ _ _ hw, StatusPaymentRequired, StatusNotFound,
    StatusServiceUnavailable, StatusUnauthorized, StatusGone, StatusInternalServerError]
  split_ifs <;> exact ⟨_, rfl, rfl⟩

/-! ## C1: classification of errors -/

/-- C1: on a response whose header is not yet written, `processStreamError`
writes exactly one status, chosen by the first matching rule in the order
402 (is or wraps `errPaidStream`), 404 (is or wraps `errStreamNotFound`),
503 ("blob not found"), 503 ("hash in response does not match"),
401 ("token contains an invalid number of segments"),
401 ("crypto/rsa: verification error"), 410 ("token is expired"), 500
(anything else); the body written is exactly the text of the error and the
header map is left alone. -/
theorem processStreamError_classifies (w : ResponseWriter) (err : GoError)
    (hw : w.status = none) :
    (processStreamError w err).body = w.body ++ err.text ∧
    (processStreamError w err).header = w.header ∧
    (∃ code, (processStreamError w err).status = some code) ∧
    (errorsIs err errPaidStream = true →
      (processStreamError w err).status = some 402) ∧
    (errorsIs err errPaidStream = false → errorsIs err errStreamNotFound = true →
      (processStreamError w err).status = some 404) ∧
    (errorsIs err errPaidStream = false → errorsIs err errStreamNotFound = false →
      stringsContains err.text "blob not found" = true →
      (processStreamError w err).status = some 503) ∧
    (errorsIs err errPaidStream = false → errorsIs err errStreamNotFound = false →
      stringsContains err.text "blob not found" = false →
      stringsContains err.text "hash in response does not match" = true →
      (processStreamError w err).status = some 503) ∧
    (errorsIs err errPaidStream = false → errorsIs err errStreamNotFound = false →
      stringsContains err.text "blob not found" = false →
      stringsContains err.text "hash in response does not match" = false →
      stringsContains err.text "token contains an invalid number of segments" = true →
      (processStreamError w err).status = some 401) ∧
    (errorsIs err errPaidStream = false → errorsIs err errStreamNotFound = false →
      stringsContains err.text "blob not found" = false →
      stringsContains err.text "hash in response does not match" = false →
      stringsContains err.text "token contains an invalid number of segments" = false →
      stringsContains err.text "crypto/rsa: verification error" = true →
      (processStreamError w err).status = some 401) ∧
    (errorsIs err errPaidStream = false → errorsIs err errStreamNotFound = false →
      stringsContains err.text "blob not found" = false →
      stringsContains err.text "hash in response does not match" = false →
      stringsContains err.text "token contains an invalid number of segments" = false →
      stringsContains err.text "crypto/rsa: verification error" = false →
      stringsContains err.text "token is expired" = true →
      (processStreamError w err).status = some 410) ∧
    (errorsIs err errPaidStream = false → errorsIs err errStreamNotFound = false →
      stringsContains err.text "blob not found" = false →
      stringsContains err.text "hash in response does not match" = false →
      stringsContains err.text "token contains an invalid number of segments" = false →
      stringsContains err.text "crypto/rsa: verification error" = false →
      stringsContains err.text "token is expired" = false →
      (processStreamError w err).status = some 500) := by
  obtain ⟨code, heq, hcode⟩ := processStreamError_fresh w err hw
  rw [heq]
  refine ⟨rfl, rfl, ⟨code, rfl⟩, ?_, ?_, ?_, ?_, ?_, ?_, ?_, ?_⟩ <;> intros <;>
    simp_all

/-- Witness for C1: an error with the text of an expired token, on a fresh
response. -/
theorem processStreamError_classifies_witness :
    (processStreamError freshWriter { text := "token is expired by 5s", chain := [] }).body
      = freshWriter.body ++ "token is expired by 5s" ∧
    (processStreamError freshWriter { text := "token is expired by 5s", chain := [] }).status
      = some 410 :=
  ⟨(processStreamError_classifies freshWriter
      { text := "token is expired by 5s", chain := [] } rfl).1,
    (processStreamError_classifies freshWriter
      { text := "token is expired by 5s", chain := [] } rfl).2.2.2.2.2.2.2.2.2.1
      (by decide) (by decide) (by decide) (by decide) (by decide) (by decide) (by decide)⟩

/-! ## Facts about `ResolveStream` and `VerifyAccess` used below -/

theorem isPaid_false_iff (s : Stream) :
    isPaid s = false ↔ s.claim.fee = none ∨ ∃ f, s.claim.fee = some f ∧ f.Amount ≤ 0 := by
  unfold isPaid
  cases h : s.claim.fee with
  | none => simp
  | some f => simp

theorem isPaid_true_iff (s : Stream) :
    isPaid s = true ↔ ∃ f, s.claim.fee = some f ∧ 0 < f.Amount := by
  unfold isPaid
  cases h : s.claim.fee with
  | none => simp
  | some f => simp

/-- `ResolveStream` either answers from the cache, or calls the resolver once
and fails with the cache untouched, or calls it once and stores the claim. -/
theorem ResolveStream_cases (env : Env) (cache : Cache) (uri : String) :
    (∃ item, cache.Get uri = some item ∧ item.Expired env.now = false ∧
      ResolveStream env cache uri = (Except.ok (NewStream uri item.value), cache, [])) ∨
    ((cache.Get uri = none ∨ ∃ item, cache.Get uri = some item ∧ item.Expired env.now = true) ∧
      ((∃ err, resolve env uri = Except.error err ∧
          ResolveStream env cache uri = (Except.error err, cache, [Event.resolverCall uri])) ∨
        (∃ claim, resolve env uri = Except.ok claim ∧
          ResolveStream env cache uri =
            (Except.ok (NewStream uri claim),
              cache.Set uri claim ((randIntn env.rand 5 + 5) * Minute) env.now,
              [Event.resolverCall uri])))) := by
  unfold ResolveStream
  cases hget : cache.Get uri with
  | none =>
    right
    refine ⟨Or.inl rfl, ?_⟩
    cases hres : resolve env uri with
    | error err => exact Or.inl ⟨err, rfl, rfl⟩
    | ok claim => exact Or.inr ⟨claim, rfl, rfl⟩
  | some item =>
    cases hexp : item.Expired env.now with
    | false =>
      left
      exact ⟨item, rfl, hexp, by simp [hexp]⟩
    | true =>
      right
      refine ⟨Or.inr ⟨item, rfl, hexp⟩, ?_⟩
      cases hres : resolve env uri with
      | error err => exact Or.inl ⟨err, rfl, by simp [hexp]⟩
      | ok claim => exact Or.inr ⟨claim, rfl, by simp [hexp]⟩

/-- A stream returned by `ResolveStream` carries the requested URI, and the
only calls made are resolver calls for that URI. -/
theorem ResolveStream_ok_URI (env : Env) (cache cache1 : Cache) (uri : String) (s : Stream)
    (ev : List Event) (h : ResolveStream env cache uri = (Except.ok s, cache1, ev)) :
    s.URI = uri ∧ ∀ e ∈ ev, e = Event.resolverCall uri := by
  rcases ResolveStream_cases env cache uri with ⟨item, _, _, h1⟩ | ⟨_, ⟨err, _, h1⟩ | ⟨claim, _, h1⟩⟩
  · rw [h1] at h
    simp only [Prod.mk.injEq, Except.ok.injEq] at h
    obtain ⟨hs, _, hev⟩ := h
    subst hs; subst hev
    exact ⟨rfl, by simp⟩
  · rw [h1] at h
    simp at h
  · rw [h1] at h
    simp only [Prod.mk.injEq, Except.ok.injEq] at h
    obtain ⟨hs, _, hev⟩ := h
    subst hs; subst hev
    exact ⟨rfl, by simp⟩

/-! ## C2: free streams -/

/-- C2: when the descriptor of the stream has no fee, or a fee whose amount is
not above zero, `VerifyAccess` returns `nil` for every token and makes no call
to the token verifier. -/
theorem VerifyAccess_free (env : Env) (s : Stream) (token : String)
    (hfree : s.claim.fee = none ∨ ∃ f, s.claim.fee = some f ∧ f.Amount ≤ 0) :
    VerifyAccess env s token = (none, []) := by
  have h := (isPaid_false_iff s).2 hfree
  simp [VerifyAccess, h]

/-- Witness for C2: a free stream, a malformed token and a verifier that
rejects everything. -/
theorem VerifyAccess_free_witness :
    VerifyAccess { sampleEnv with VerifyStreamAccess := fun _ _ => some errPaidStream }
      (NewStream "video#a" freeClaim) "not.a.token" = (none, []) :=
  VerifyAccess_free _ (NewStream "video#a" freeClaim) "not.a.token" (Or.inl rfl)

/-! ## C3: priced streams without a token -/

/-- C3: for a stream whose fee is present with an amount above zero,
`VerifyAccess` with the empty token returns `errPaidStream` without calling the
verifier; a request for it with an empty token is answered with status 402 and
the text of `errPaidStream`, and neither `PrepareForReading` nor `Play` is
called. -/
theorem Handle_paid_no_token (env : Env) (cache cache1 : Cache) (w : ResponseWriter)
    (r : Request) (s : Stream) (f : Fee) (ev1 : List Event)
    (hfee : s.claim.fee = some f) (hpos : 0 < f.Amount)
    (hw : w.status = none) (htoken : r.token = "")
    (hres : ResolveStream env cache (sprintfHash r.claim_name r.claim_id)
      = (Except.ok s, cache1, ev1)) :
    VerifyAccess env s "" = (some errPaidStream, []) ∧
    (Handle env cache w r).1.status = some 402 ∧
    (Handle env cache w r).1.body = w.body ++ errPaidStream.text ∧
    (∀ e ∈ (Handle env cache w r).2.2,
      (∀ s1, e ≠ Event.prepareForReading s1) ∧ (∀ s1, e ≠ Event.play s1) ∧
      (∀ a b, e ≠ Event.verifierCall a b)) := by
  have hpaid : isPaid s = true := (isPaid_true_iff s).2 ⟨f, hfee, hpos⟩
  have hva : VerifyAccess env s "" = (some errPaidStream, []) := by
    simp [VerifyAccess, hpaid]
  have hH : Handle env cache w r =
      (processStreamError w errPaidStream, cache1,
        ev1 ++ [] ++ [Event.streamError "access" errPaidStream]) := by
    simp only [Handle, hres, htoken, hva]
  obtain ⟨code, heq, hcode⟩ := processStreamError_fresh w errPaidStream hw
  have hc : code = 402 := by rw [hcode]; decide
  subst hc
  refine ⟨hva, ?_, ?_, ?_⟩
  · rw [hH, heq]
  · rw [hH, heq]
  · rw [hH]
    intro e he
    simp only [List.append_nil, List.mem_append, List.mem_singleton] at he
    rcases he with he | he
    · have := (ResolveStream_ok_URI env cache cache1 _ s ev1 hres).2 e he
      subst this
      simp
    · subst he
      simp

/-- Witness for C3: the sample paid stream requested without a token. -/
theorem Handle_paid_no_token_witness :
    (Handle sampleEnv [] freshWriter sampleRequest).1.status = some 402 :=
  (Handle_paid_no_token sampleEnv []
    (Cache.Set [] "video#a" paidClaim ((randIntn 7 5 + 5) * Minute) 1000)
    freshWriter sampleRequest
    (NewStream "video#a" paidClaim) { Amount := 5 } [Event.resolverCall "video#a"]
    rfl (by decide) rfl rfl rfl).2.1

/-! ## C4: expired tokens -/

theorem VerifyAccess_paid_token (env : Env) (s : Stream) (token : String)
    (hpaid : isPaid s = true) (htoken : token ≠ "") :
    VerifyAccess env s token =
      (env.VerifyStreamAccess (stringsReplace s.URI "#" "/" 1) token,
        [Event.verifierCall (stringsReplace s.URI "#" "/" 1) token]) := by
  unfold VerifyAccess
  simp only [hpaid, htoken, Bool.not_true, Bool.false_eq_true, if_false]
  cases env.VerifyStreamAccess (stringsReplace s.URI "#" "/" 1) token <;> rfl

/-- An error of the verifier that reports an expired token matches none of the
rules `processStreamError` tests before the expiry rule. -/
theorem verifierError_expired (err : GoError) (hv : verifierError err = true)
    (hexp : stringsContains err.text "token is expired" = true) :
    errorsIs err errPaidStream = false ∧ errorsIs err errStreamNotFound = false ∧
    stringsContains err.text "blob not found" = false ∧
    stringsContains err.text "hash in response does not match" = false ∧
    stringsContains err.text "token contains an invalid number of segments" = false ∧
    stringsContains err.text "crypto/rsa: verification error" = false := by
  simp only [verifierError, Bool.and_eq_true, decide_eq_true_eq, Bool.not_eq_true'] at hv
  obtain ⟨⟨hcount, h1⟩, h2⟩ := hv
  refine ⟨h1, h2, ?_⟩
  unfold reasonCount reasonMarkers at hcount
  cases h3 : stringsContains err.text "blob not found" <;>
  cases h4 : stringsContains err.text "hash in response does not match" <;>
  cases h5 : stringsContains err.text "token contains an invalid number of segments" <;>
  cases h6 : stringsContains err.text "crypto/rsa: verification error" <;>
  simp [List.filter, h3, h4, h5, h6, hexp] at hcount ⊢

/-- C4: for a priced stream and a non-empty token that the token verifier
rejects with an error whose text contains "token is expired", `VerifyAccess`
returns that error unchanged after one verifier call; and, the error being one
of the verifier's (one distinct reason, none of the handler's sentinels), the
request is answered with status 410 and with no other status, 401 included,
the body is the text of the error, and neither `PrepareForReading` nor `Play`
is called. -/
theorem Handle_expired_token (env : Env) (cache cache1 : Cache) (w : ResponseWriter)
    (r : Request) (s : Stream) (f : Fee) (ev1 : List Event) (err : GoError)
    (hfee : s.claim.fee = some f) (hpos : 0 < f.Amount)
    (hw : w.status = none) (htoken : r.token ≠ "")
    (hres : ResolveStream env cache (sprintfHash r.claim_name r.claim_id)
      = (Except.ok s, cache1, ev1))
    (hrej : env.VerifyStreamAccess (stringsReplace s.URI "#" "/" 1) r.token = some err)
    (hexp : stringsContains err.text "token is expired" = true) :
    VerifyAccess env s r.token
      = (some err, [Event.verifierCall (stringsReplace s.URI "#" "/" 1) r.token]) ∧
    (Handle env cache w r).2.2
      = ev1 ++ [Event.verifierCall (stringsReplace s.URI "#" "/" 1) r.token,
          Event.streamError "access" err] ∧
    (∀ e ∈ (Handle env cache w r).2.2,
      (∀ s1, e ≠ Event.prepareForReading s1) ∧ (∀ s1, e ≠ Event.play s1)) ∧
    (Handle env cache w r).1.body = w.body ++ err.text ∧
    (verifierError err = true →
      (Handle env cache w r).1.status = some 410 ∧
      (Handle env cache w r).1.status ≠ some 401 ∧
      ∀ code, (Handle env cache w r).1.status = some code → code = 410) := by
  have hpaid : isPaid s = true := (isPaid_true_iff s).2 ⟨f, hfee, hpos⟩
  have hva := VerifyAccess_paid_token env s r.token hpaid htoken
  rw [hrej] at hva
  have hH : Handle env cache w r =
      (processStreamError w err, cache1,
        ev1 ++ [Event.verifierCall (stringsReplace s.URI "#" "/" 1) r.token]
          ++ [Event.streamError "access" err]) := by
    simp only [Handle, hres, hva]
  obtain ⟨code, heq, hcode⟩ := processStreamError_fresh w err hw
  refine ⟨hva, ?_, ?_, ?_, ?_⟩
  · rw [hH]
    simp
  · rw [hH]
    intro e he
    simp only [List.mem_append, List.mem_singleton] at he
    rcases he with (he | he) | he
    · have := (ResolveStream_ok_URI env cache cache1 _ s ev1 hres).2 e he
      subst this
      simp
    · subst he
      simp
    · subst he
      simp
  · rw [hH, heq]
  · intro hv
    obtain ⟨h1, h2, h3, h4, h5, h6⟩ := verifierError_expired err hv hexp
    have hc : code = 410 := by rw [hcode]; simp [h1, h2, h3, h4, h5, h6, hexp]
    subst hc
    rw [hH, heq]
    refine ⟨rfl, by simp, ?_⟩
    intro c hcd
    simp only [Option.some.injEq] at hcd
    exact hcd.symm

/-- Witness for C4: a verifier that finds every token expired. -/
theorem Handle_expired_token_witness :
    VerifyAccess expiredEnv (NewStream "video#a" paidClaim) "tok"
      = (some expiredErr, [Event.verifierCall "video/a" "tok"]) ∧
    (Handle expiredEnv [] freshWriter { sampleRequest with token := "tok" }).1.status
      = some 410 :=
  have h := Handle_expired_token expiredEnv []
    (Cache.Set [] "video#a" paidClaim ((randIntn 7 5 + 5) * Minute) 1000)
    freshWriter { sampleRequest with token := "tok" }
    (NewStream "video#a" paidClaim) { Amount := 5 } [Event.resolverCall "video#a"]
    expiredErr rfl (by decide) rfl (by decide) rfl rfl (by decide)
  ⟨h.1, (h.2.2.2.2 (by decide)).1⟩

/-! ## C5: failures during playback -/

/-- The calls `ResolveStream` makes are resolver calls. -/
theorem ResolveStream_events (env : Env) (cache : Cache) (uri : String) :
    ∀ e ∈ (ResolveStream env cache uri).2.2, e = Event.resolverCall uri := by
  rcases ResolveStream_cases env cache uri with ⟨item, _, _, h1⟩ | ⟨_, ⟨err, _, h1⟩ | ⟨claim, _, h1⟩⟩ <;>
    rw [h1] <;> simp

/-- The calls `VerifyAccess` makes are verifier calls. -/
theorem VerifyAccess_events (env : Env) (s : Stream) (token : String) :
    ∀ e ∈ (VerifyAccess env s token).2, ∃ a b, e = Event.verifierCall a b := by
  by_cases hp : isPaid s = true
  · by_cases ht : token = ""
    · simp [VerifyAccess, hp, ht]
    · rw [VerifyAccess_paid_token env s token hp ht]
      simp
  · simp [VerifyAccess, hp]

/-- `Play` returns `nil` whatever `ServeStream` does. -/
theorem Play_returns_nil (env : Env) (s : Stream) (w : ResponseWriter) (r : Request) :
    (Play env s w r).2 = none := rfl

/-- No request ever reaches `processStreamError` with a playback error. -/
theorem Handle_no_playback_error (env : Env) (cache : Cache) (w : ResponseWriter)
    (r : Request) :
    ∀ e ∈ (Handle env cache w r).2.2, ∀ err, e ≠ Event.streamError "playback" err := by
  intro e he err heq
  subst heq
  have hR := ResolveStream_events env cache (sprintfHash r.claim_name r.claim_id)
  rcases hrs : ResolveStream env cache (sprintfHash r.claim_name r.claim_id) with ⟨res, c1, ev1⟩
  rw [hrs] at hR
  simp only [Handle, hrs] at he
  have hne1 : Event.streamError "playback" err ∉ ev1 := fun hm => by
    have := hR _ hm
    simp at this
  cases res with
  | error e0 => simp [hne1] at he
  | ok s =>
    have hV := VerifyAccess_events env s r.token
    rcases hva : VerifyAccess env s r.token with ⟨verr, ev2⟩
    rw [hva] at hV
    have hne2 : Event.streamError "playback" err ∉ ev2 := fun hm => by
      obtain ⟨a, b, hab⟩ := hV _ hm
      simp at hab
    simp only [hva] at he
    cases verr with
    | some e1 => simp [hne1, hne2] at he
    | none =>
      simp only at he
      cases hp : env.PrepareForReading s with
      | some e2 => simp [hp, hne1, hne2] at he
      | none =>
        simp only [hp, Play] at he
        split_ifs at he <;> simp [hne1, hne2] at he

/-- C5 at a failing input: a GET of a free stream during which `ServeStream`
has written the header and four bytes when a chunk arrives with a hash
mismatch.  The response keeps status 200; `processStreamError` is never
reached, so no 503 is written. -/
theorem Handle_playback_hash_mismatch_status :
    (Handle hashMismatchEnv [] freshWriter sampleRequest).1.status = some 200 ∧
    (Handle hashMismatchEnv [] freshWriter sampleRequest).1.status ≠ some 503 ∧
    (Handle hashMismatchEnv [] freshWriter sampleRequest).1.body = "0123" ∧
    (Handle hashMismatchEnv [] freshWriter sampleRequest).2.2 =
      [Event.resolverCall "video#a",
        Event.prepareForReading (NewStream "video#a" freeClaim),
        Event.play (NewStream "video#a" freeClaim)] := by
  decide

/-! ## C6: failed resolutions are not cached -/

theorem resolve_error_of_failure (env : Env) (uri : String)
    (hfail : (∃ e, env.Resolve uri = Except.error e) ∨
      ∃ m, env.Resolve uri = Except.ok m ∧
        (mapLookup m uri = none ∨ ∃ c, mapLookup m uri = some c ∧ c.CanonicalURL = "")) :
    ∃ err, resolve env uri = Except.error err ∧
      (∀ e, env.Resolve uri = Except.error e → err = e) ∧
      (∀ m, env.Resolve uri = Except.ok m → err = errStreamNotFound) := by
  rcases hfail with ⟨e, he⟩ | ⟨m, hm, hno⟩
  · refine ⟨e, by simp [resolve, he], ?_, ?_⟩
    · intro e1 h1
      rw [he] at h1
      exact (Except.error.inj h1)
    · intro m h1
      rw [he] at h1
      cases h1
  · have hurl : (mapIndex m uri).CanonicalURL = "" := by
      rcases hno with h0 | ⟨c, hc, hc0⟩
      · simp [mapIndex, h0, Claim.zero]
      · simp [mapIndex, hc, hc0]
    refine ⟨errStreamNotFound, by simp [resolve, hm, hurl], ?_, ?_⟩
    · intro e1 h1
      rw [hm] at h1
      cases h1
    · intro _ _
      rfl

/-- An entry that is absent or expired stays so when the clock moves on, and
`ResolveStream` then calls the resolver. -/
theorem ResolveStream_calls_resolver (env : Env) (cache : Cache) (uri : String)
    (hcall : cache.Get uri = none ∨
      ∃ item, cache.Get uri = some item ∧ item.Expired env.now = true) :
    (ResolveStream env cache uri).2.2 = [Event.resolverCall uri] := by
  rcases ResolveStream_cases env cache uri with ⟨item, hg, hf, _⟩ | ⟨_, ⟨err, _, h1⟩ | ⟨claim, _, h1⟩⟩
  · rcases hcall with h0 | ⟨item1, hg1, he1⟩
    · rw [h0] at hg
      cases hg
    · rw [hg1] at hg
      cases hg
      rw [he1] at hf
      cases hf
  · rw [h1]
  · rw [h1]

/-- C6: when the resolver is called (the entry is absent or expired) and the
call fails, or succeeds with a mapping that has no entry for the URI or an
entry with an empty canonical URL, `ResolveStream` returns an error and no
stream (the resolver's error in the first case, `errStreamNotFound` in the
other two), the resolve cache is exactly what it was, and any later
`ResolveStream` of the same URI on that cache calls the resolver again. -/
theorem ResolveStream_failure_keeps_cache (env : Env) (cache : Cache) (uri : String)
    (hcall : cache.Get uri = none ∨
      ∃ item, cache.Get uri = some item ∧ item.Expired env.now = true)
    (hfail : (∃ e, env.Resolve uri = Except.error e) ∨
      ∃ m, env.Resolve uri = Except.ok m ∧
        (mapLookup m uri = none ∨ ∃ c, mapLookup m uri = some c ∧ c.CanonicalURL = "")) :
    ∃ err, ResolveStream env cache uri = (Except.error err, cache, [Event.resolverCall uri]) ∧
      (∀ e, env.Resolve uri = Except.error e → err = e) ∧
      (∀ m, env.Resolve uri = Except.ok m → err = errStreamNotFound) ∧
      ∀ env2 : Env, env.now ≤ env2.now →
        (ResolveStream env2 (ResolveStream env cache uri).2.1 uri).2.2
          = [Event.resolverCall uri] := by
  obtain ⟨err, hres, hE, hM⟩ := resolve_error_of_failure env uri hfail
  have hRS : ResolveStream env cache uri = (Except.error err, cache, [Event.resolverCall uri]) := by
    rcases ResolveStream_cases env cache uri with
      ⟨item, hg, hf, _⟩ | ⟨_, ⟨err1, hr1, h1⟩ | ⟨claim, hr1, _⟩⟩
    · rcases hcall with h0 | ⟨item1, hg1, he1⟩
      · rw [h0] at hg
        cases hg
      · rw [hg1] at hg
        cases hg
        rw [he1] at hf
        cases hf
    · rw [hres] at hr1
      cases hr1
      exact h1
    · rw [hres] at hr1
      cases hr1
  refine ⟨err, hRS, hE, hM, ?_⟩
  intro env2 hnow
  rw [hRS]
  apply ResolveStream_calls_resolver
  rcases hcall with h0 | ⟨item1, hg1, he1⟩
  · exact Or.inl h0
  · refine Or.inr ⟨item1, hg1, ?_⟩
    simp only [Item.Expired, decide_eq_true_eq] at he1 ⊢
    omega

/-- Witness for C6: the resolver answers with an empty mapping. -/
theorem ResolveStream_failure_keeps_cache_witness :
    ∃ err, ResolveStream notFoundEnv staleCache "video#a"
      = (Except.error err, staleCache, [Event.resolverCall "video#a"]) ∧
      (∀ e, notFoundEnv.Resolve "video#a" = Except.error e → err = e) ∧
      (∀ m, notFoundEnv.Resolve "video#a" = Except.ok m → err = errStreamNotFound) ∧
      ∀ env2 : Env, notFoundEnv.now ≤ env2.now →
        (ResolveStream env2 (ResolveStream notFoundEnv staleCache "video#a").2.1 "video#a").2.2
          = [Event.resolverCall "video#a"] :=
  ResolveStream_failure_keeps_cache notFoundEnv staleCache "video#a"
    (Or.inr ⟨{ value := paidClaim, expires := 999 }, rfl, by decide⟩)
    (Or.inr ⟨[], rfl, Or.inl rfl⟩)

/-! ## C7: cache hits -/

/-- C7: when the entry for the URI is in the resolve cache and not expired,
`ResolveStream` makes no resolver call, leaves the cache as it is and returns
the stream built from the cached claim; and in every state the resolver is
called exactly when the entry is absent or expired. -/
theorem ResolveStream_cache_hit (env : Env) (cache : Cache) (uri : String) (item : Item)
    (hget : cache.Get uri = some item) (hlive : item.Expired env.now = false) :
    ResolveStream env cache uri = (Except.ok (NewStream uri item.value), cache, []) ∧
    (ResolveStream env cache uri).2.1.Get uri = some item ∧
    ∀ (env1 : Env) (cache1 : Cache) (uri1 : String),
      (Event.resolverCall uri1 ∈ (ResolveStream env1 cache1 uri1).2.2 ↔
        (cache1.Get uri1 = none ∨
          ∃ item1, cache1.Get uri1 = some item1 ∧ item1.Expired env1.now = true)) ∧
      ((ResolveStream env1 cache1 uri1).2.2 = [] ∨
        (ResolveStream env1 cache1 uri1).2.2 = [Event.resolverCall uri1]) := by
  have hhit : ResolveStream env cache uri = (Except.ok (NewStream uri item.value), cache, []) := by
    simp [ResolveStream, hget, hlive]
  refine ⟨hhit, by rw [hhit]; exact hget, ?_⟩
  intro env1 cache1 uri1
  rcases ResolveStream_cases env1 cache1 uri1 with
    ⟨it, hg, hf, h1⟩ | ⟨hc, h1⟩
  · refine ⟨?_, Or.inl (by rw [h1])⟩
    rw [h1]
    constructor
    · intro h
      simp at h
    · rintro (h0 | ⟨it1, hg1, he1⟩)
      · rw [h0] at hg
        cases hg
      · rw [hg1] at hg
        cases hg
        rw [he1] at hf
        cases hf
  · have := ResolveStream_calls_resolver env1 cache1 uri1 hc
    refine ⟨?_, Or.inr this⟩
    rw [this]
    simp [hc]

/-- Witness for C7: an entry that expires exactly now is still served from the
cache, although the resolver would fail. -/
theorem ResolveStream_cache_hit_witness :
    ResolveStream notFoundEnv [("video#a", { value := paidClaim, expires := 1000 })] "video#a"
      = (Except.ok (NewStream "video#a" paidClaim),
          [("video#a", { value := paidClaim, expires := 1000 })], []) :=
  (ResolveStream_cache_hit notFoundEnv [("video#a", { value := paidClaim, expires := 1000 })]
    "video#a" { value := paidClaim, expires := 1000 } rfl (by decide)).1

/-! ## C8: time-to-live of a stored claim -/

theorem Cache_Get_Set (c : Cache) (key : String) (value : Claim) (duration now : Nat) :
    (Cache.Set c key value duration now).Get key
      = some { value := value, expires := now + duration } := by
  simp [Cache.Set, Cache.Get]

/-- C8: when the resolver is called and succeeds, the claim is stored with an
expiry of `now + ttl`, where `ttl` is `(5 + j)` minutes for a whole number `j`
with `0 ≤ j < 5` drawn from the random source; so `ttl` lies between 5 and 10
minutes, whatever the random source returns. -/
theorem ResolveStream_ttl (env : Env) (cache : Cache) (uri : String) (claim : Claim)
    (hcall : cache.Get uri = none ∨
      ∃ item, cache.Get uri = some item ∧ item.Expired env.now = true)
    (hres : resolve env uri = Except.ok claim) :
    ∃ j ttl, j = randIntn env.rand 5 ∧ j < 5 ∧ ttl = (5 + j) * Minute ∧
      (ResolveStream env cache uri).2.1.Get uri
        = some { value := claim, expires := env.now + ttl } ∧
      5 * Minute ≤ ttl ∧ ttl ≤ 10 * Minute := by
  have hj : randIntn env.rand 5 < 5 := Nat.mod_lt _ (by decide)
  refine ⟨randIntn env.rand 5, (5 + randIntn env.rand 5) * Minute, rfl, hj, rfl, ?_, ?_, ?_⟩
  · rcases ResolveStream_cases env cache uri with
      ⟨item, hg, hf, _⟩ | ⟨_, ⟨err1, hr1, _⟩ | ⟨claim1, hr1, h1⟩⟩
    · rcases hcall with h0 | ⟨item1, hg1, he1⟩
      · rw [h0] at hg
        cases hg
      · rw [hg1] at hg
        cases hg
        rw [he1] at hf
        cases hf
    · rw [hres] at hr1
      cases hr1
    · rw [hres] at hr1
      cases hr1
      rw [h1, Nat.add_comm 5]
      exact Cache_Get_Set _ _ _ _ _
  · exact Nat.mul_le_mul_right _ (by omega)
  · exact Nat.mul_le_mul_right _ (by omega)

/-- Witness for C8: an empty cache and the raw draw 7, giving 7 minutes. -/
theorem ResolveStream_ttl_witness :
    ∃ j ttl, j = randIntn sampleEnv.rand 5 ∧ j < 5 ∧ ttl = (5 + j) * Minute ∧
      (ResolveStream sampleEnv [] "video#a").2.1.Get "video#a"
        = some { value := paidClaim, expires := sampleEnv.now + ttl } ∧
      5 * Minute ≤ ttl ∧ ttl ≤ 10 * Minute :=
  ResolveStream_ttl sampleEnv [] "video#a" paidClaim (Or.inl rfl) rfl

/-! ## C9: HEAD requests -/

theorem headerGet_headerSet_same (h : List (String × String)) (key value : String) :
    headerGet (headerSet h key value) key = some value := by
  unfold headerGet headerSet
  have hnone : List.find? (fun kv => decide (kv.1 = key))
      (h.filter (fun kv => decide (kv.1 ≠ key))) = none := by
    rw [List.find?_eq_none]
    intro x hx
    have := (List.mem_filter.1 hx).2
    simpa using this
  rw [List.find?_append, hnone]
  simp

theorem headerGet_headerSet_other (h : List (String × String)) (key key1 value : String)
    (hne : key ≠ key1) :
    headerGet (headerSet h key value) key1 = headerGet h key1 := by
  unfold headerGet headerSet
  induction h with
  | nil => simp [hne]
  | cons kv rest ih =>
    by_cases hk : kv.1 = key
    · have hk1 : ¬ kv.1 = key1 := fun h1 => hne (hk.symm.trans h1)
      rw [List.filter_cons_of_neg (by simpa using hk),
        List.find?_cons_of_neg _ (by simpa using hk1)]
      exact ih
    · rw [List.filter_cons_of_pos (by simpa using hk), List.cons_append]
      by_cases hk1 : kv.1 = key1
      · rw [List.find?_cons_of_pos _ (by simpa using hk1),
          List.find?_cons_of_pos _ (by simpa using hk1)]
      · rw [List.find?_cons_of_neg _ (by simpa using hk1),
          List.find?_cons_of_neg _ (by simpa using hk1)]
        exact ih

/-- The headers `writeHeaders` leaves in the map. -/
theorem writeHeaders_headers (env : Env) (w : ResponseWriter) (r : Request) (s : Stream) :
    headerGet (writeHeaders env w r s).header "Content-Length" = some (toString s.claim.size) ∧
    headerGet (writeHeaders env w r s).header "Content-Type" = some s.claim.contentType ∧
    headerGet (writeHeaders env w r s).header "Cache-Control"
      = some "public, max-age=31536000" ∧
    headerGet (writeHeaders env w r s).header "Last-Modified" = some s.claim.lastModified ∧
    headerGet (writeHeaders env w r s).header "Access-Control-Expose-Headers"
      = some "X-Powered-By" ∧
    (r.download ≠ "" →
      headerGet (writeHeaders env w r s).header "Content-Disposition"
        = some ("attachment; filename=" ++ s.claim.filename)) ∧
    (writeHeaders env w r s).status = w.status ∧
    (writeHeaders env w r s).body = w.body := by
  simp only [writeHeaders]
  by_cases hd : r.download = ""
  · rw [if_neg (not_not.mpr hd)]
    refine ⟨?_, ?_, ?_, ?_, ?_, ?_, trivial, trivial⟩
    · rw [headerGet_headerSet_other _ _ _ _ (by decide), headerGet_headerSet_other _ _ _ _ (by decide),
        headerGet_headerSet_other _ _ _ _ (by decide), headerGet_headerSet_other _ _ _ _ (by decide),
        headerGet_headerSet_other _ _ _ _ (by decide), headerGet_headerSet_same]
    · rw [headerGet_headerSet_other _ _ _ _ (by decide), headerGet_headerSet_other _ _ _ _ (by decide),
        headerGet_headerSet_other _ _ _ _ (by decide), headerGet_headerSet_other _ _ _ _ (by decide),
        headerGet_headerSet_same]
    · rw [headerGet_headerSet_other _ _ _ _ (by decide), headerGet_headerSet_other _ _ _ _ (by decide),
        headerGet_headerSet_other _ _ _ _ (by decide), headerGet_headerSet_same]
    · rw [headerGet_headerSet_other _ _ _ _ (by decide), headerGet_headerSet_other _ _ _ _ (by decide),
        headerGet_headerSet_same]
    · rw [headerGet_headerSet_same]
    · intro h
      exact absurd hd h
  · rw [if_pos hd]
    refine ⟨?_, ?_, ?_, ?_, ?_, ?_, trivial, trivial⟩
    · rw [headerGet_headerSet_other _ _ _ _ (by decide),
        headerGet_headerSet_other _ _ _ _ (by decide), headerGet_headerSet_other _ _ _ _ (by decide),
        headerGet_headerSet_other _ _ _ _ (by decide), headerGet_headerSet_other _ _ _ _ (by decide),
        headerGet_headerSet_other _ _ _ _ (by decide), headerGet_headerSet_same]
    · rw [headerGet_headerSet_other _ _ _ _ (by decide),
        headerGet_headerSet_other _ _ _ _ (by decide), headerGet_headerSet_other _ _ _ _ (by decide),
        headerGet_headerSet_other _ _ _ _ (by decide), headerGet_headerSet_other _ _ _ _ (by decide),
        headerGet_headerSet_same]
    · rw [headerGet_headerSet_other _ _ _ _ (by decide),
        headerGet_headerSet_other _ _ _ _ (by decide), headerGet_headerSet_other _ _ _ _ (by decide),
        headerGet_headerSet_other _ _ _ _ (by decide), headerGet_headerSet_same]
    · rw [headerGet_headerSet_other _ _ _ _ (by decide),
        headerGet_headerSet_other _ _ _ _ (by decide), headerGet_headerSet_other _ _ _ _ (by decide),
        headerGet_headerSet_same]
    · rw [headerGet_headerSet_other _ _ _ _ (by decide), headerGet_headerSet_same]
    · intro _
      rw [headerGet_headerSet_same]

/-- C9: for a HEAD request whose URI resolves, passes the access check and is
prepared for reading, `Handle` sets the delivery headers, writes status 200,
adds no byte to the body and does not call `Play`. -/
theorem Handle_head (env : Env) (cache cache1 : Cache) (w : ResponseWriter)
    (r : Request) (s : Stream) (ev1 : List Event)
    (hmethod : r.Method = MethodHead) (hw : w.status = none)
    (hres : ResolveStream env cache (sprintfHash r.claim_name r.claim_id)
      = (Except.ok s, cache1, ev1))
    (hacc : (VerifyAccess env s r.token).1 = none)
    (hprep : env.PrepareForReading s = none) :
    (Handle env cache w r).1 =
      { header := (writeHeaders env w r s).header, status := some 200, body := w.body } ∧
    headerGet (Handle env cache w r).1.header "Content-Length"
      = some (toString s.claim.size) ∧
    headerGet (Handle env cache w r).1.header "Content-Type" = some s.claim.contentType ∧
    headerGet (Handle env cache w r).1.header "Cache-Control"
      = some "public, max-age=31536000" ∧
    headerGet (Handle env cache w r).1.header "Last-Modified" = some s.claim.lastModified ∧
    (∀ e ∈ (Handle env cache w r).2.2,
      (∀ s1, e ≠ Event.play s1) ∧ (∀ t err, e ≠ Event.streamError t err)) := by
  rcases hva : VerifyAccess env s r.token with ⟨verr, ev2⟩
  have hV := VerifyAccess_events env s r.token
  rw [hva] at hacc hV
  simp only at hacc
  subst hacc
  have hH : Handle env cache w r =
      ((writeHeaders env w r s).WriteHeader StatusOK, cache1,
        ev1 ++ ev2 ++ [Event.prepareForReading s]) := by
    simp only [Handle, hres, hva, hprep, hmethod, if_true]
  obtain ⟨h1, h2, h3, h4, _, _, hst, hbody⟩ := writeHeaders_headers env w r s
  have hW : (writeHeaders env w r s).WriteHeader StatusOK =
      { header := (writeHeaders env w r s).header, status := some 200, body := w.body } := by
    unfold ResponseWriter.WriteHeader
    rw [hst, hw, ← hbody]
    rfl
  rw [hH, hW]
  refine ⟨rfl, h1, h2, h3, h4, ?_⟩
  intro e he
  simp only [List.mem_append, List.mem_singleton] at he
  rcases he with (he | he) | he
  · have := (ResolveStream_ok_URI env cache cache1 _ s ev1 hres).2 e he
    subst this
    simp
  · obtain ⟨a, b, hab⟩ := hV e he
    subst hab
    simp
  · subst he
    simp

/-- Witness for C9: a HEAD request for the sample stream with a token the
verifier accepts. -/
theorem Handle_head_witness :
    (Handle sampleEnv [] freshWriter
      { sampleRequest with Method := "HEAD", token := "tok" }).1.status = some 200 ∧
    (Handle sampleEnv [] freshWriter
      { sampleRequest with Method := "HEAD", token := "tok" }).1.body = "" :=
  have h := (Handle_head sampleEnv []
    (Cache.Set [] "video#a" paidClaim ((randIntn 7 5 + 5) * Minute) 1000)
    freshWriter { sampleRequest with Method := "HEAD", token := "tok" }
    (NewStream "video#a" paidClaim) [Event.resolverCall "video#a"]
    rfl rfl rfl rfl rfl).1
  ⟨by rw [h], by rw [h]; rfl⟩

/-! ## C10: the content identifier handed to the token verifier -/

theorem replaceChars_zero (old new : List Char) (fuel : Nat) (s : List Char) :
    replaceChars old new fuel 0 s = s := by
  cases fuel <;> rfl

/-- Replacing one `#` by `/` rewrites the first `#` and nothing else. -/
theorem replaceChars_first_hash (pre post : List Char) (fuel : Nat)
    (hpre : '#' ∉ pre) (hfuel : pre.length < fuel) :
    replaceChars ['#'] ['/'] fuel 1 (pre ++ '#' :: post) = pre ++ '/' :: post := by
  induction pre generalizing fuel with
  | nil =>
    cases fuel with
    | zero => simp at hfuel
    | succ f => simp [replaceChars, List.isPrefixOf, replaceChars_zero]
  | cons c pre ih =>
    cases fuel with
    | zero => simp at hfuel
    | succ f =>
      have hc : ¬ '#' = c := fun h => hpre (List.mem_cons.2 (Or.inl h))
      have hpre1 : '#' ∉ pre := fun h => hpre (List.mem_cons.2 (Or.inr h))
      have hf : pre.length < f := by simpa using hfuel
      simp [replaceChars, List.isPrefixOf, hc, ih f hpre1 hf]

theorem stringsReplace_first_hash (pre post : String) (hpre : '#' ∉ pre.data) :
    stringsReplace (pre ++ "#" ++ post) "#" "/" 1 = pre ++ "/" ++ post := by
  apply String.ext
  have hd : (pre ++ "#" ++ post).data = pre.data ++ '#' :: post.data := by
    simp [String.data_append]
  have hd1 : (pre ++ "/" ++ post).data = pre.data ++ '/' :: post.data := by
    simp [String.data_append]
  show replaceChars ['#'] ['/'] (pre ++ "#" ++ post).data.length 1 (pre ++ "#" ++ post).data
    = (pre ++ "/" ++ post).data
  rw [hd, hd1]
  exact replaceChars_first_hash _ _ _ hpre (by simp)

/-- C10: for a claim name without `#`, a claim id and a non-empty token on a
priced stream, the verifier is called with the content identifier `name/id`
and the token as received; this is the only verifier call of the request.  In
general `strings.Replace(uri, "#", "/", 1)` rewrites the first `#` alone and
keeps everything after it, later `#` included. -/
theorem Handle_verifier_streamID (env : Env) (cache cache1 : Cache) (w : ResponseWriter)
    (r : Request) (s : Stream) (f : Fee) (ev1 : List Event)
    (hname : '#' ∉ r.claim_name.data)
    (hres : ResolveStream env cache (sprintfHash r.claim_name r.claim_id)
      = (Except.ok s, cache1, ev1))
    (hfee : s.claim.fee = some f) (hpos : 0 < f.Amount) (htoken : r.token ≠ "") :
    (VerifyAccess env s r.token).2
      = [Event.verifierCall (r.claim_name ++ "/" ++ r.claim_id) r.token] ∧
    Event.verifierCall (r.claim_name ++ "/" ++ r.claim_id) r.token
      ∈ (Handle env cache w r).2.2 ∧
    (∀ a b, Event.verifierCall a b ∈ (Handle env cache w r).2.2 →
      a = r.claim_name ++ "/" ++ r.claim_id ∧ b = r.token) ∧
    (∀ pre post : String, '#' ∉ pre.data →
      stringsReplace (pre ++ "#" ++ post) "#" "/" 1 = pre ++ "/" ++ post) := by
  have hpaid : isPaid s = true := (isPaid_true_iff s).2 ⟨f, hfee, hpos⟩
  obtain ⟨huri, hev1⟩ := ResolveStream_ok_URI env cache cache1 _ s ev1 hres
  have hid : stringsReplace s.URI "#" "/" 1 = r.claim_name ++ "/" ++ r.claim_id := by
    rw [huri]
    exact stringsReplace_first_hash r.claim_name r.claim_id hname
  have hva := VerifyAccess_paid_token env s r.token hpaid htoken
  rw [hid] at hva
  have hne1 : ∀ a b, Event.verifierCall a b ∉ ev1 := fun a b hm => by
    have := hev1 _ hm
    simp at this
  refine ⟨by rw [hva], ?_, ?_, fun pre post h => stringsReplace_first_hash pre post h⟩
  · simp only [Handle, hres, hva]
    cases env.VerifyStreamAccess (r.claim_name ++ "/" ++ r.claim_id) r.token with
    | some err => simp
    | none =>
      simp only
      cases env.PrepareForReading s with
      | some err => simp
      | none =>
        simp only [Play]
        split_ifs <;> simp
  · intro a b hmem
    simp only [Handle, hres, hva] at hmem
    cases hv : env.VerifyStreamAccess (r.claim_name ++ "/" ++ r.claim_id) r.token with
    | some err =>
      simp only [hv] at hmem
      simpa [hne1] using hmem
    | none =>
      simp only [hv] at hmem
      cases hp : env.PrepareForReading s with
      | some err =>
        simp only [hp] at hmem
        simpa [hne1] using hmem
      | none =>
        simp only [hp, Play] at hmem
        split_ifs at hmem <;> simpa [hne1] using hmem

/-- Witness for C10: claim name `video`, claim id `a#b` and token `tok`. -/
theorem Handle_verifier_streamID_witness :
    (VerifyAccess sampleEnv (NewStream "video#a#b" paidClaim) "tok").2
      = [Event.verifierCall ("video" ++ "/" ++ "a#b") "tok"] :=
  (Handle_verifier_streamID sampleEnv []
    (Cache.Set [] "video#a#b" paidClaim ((randIntn 7 5 + 5) * Minute) 1000)
    freshWriter { sampleRequest with claim_id := "a#b", token := "tok" }
    (NewStream "video#a#b" paidClaim) { Amount := 5 } [Event.resolverCall "video#a#b"]
    (by decide) rfl rfl (by decide) (by decide)).1

end LbrytvPlayer
